import Mathlib

/-!
Verification of the AWS SigV4 request-signing action.

The repository is a small Go program (`action.go`) that builds an HTTP
request from command-line inputs, hashes its body, signs it with the AWS
Signature Version 4 scheme (via the AWS SDK signer) and dispatches it.
Below we give a shallow embedding of the program's functions:

* byte-level SHA-256 and HMAC-SHA256 (the primitives behind SigV4),
* the Go standard-library fragments the program uses (`strings.Split`,
  `strings.Trim`, `net/url.Parse` hostname extraction),
* the program's own functions (`buildRequest`,
  `buildRequestWithBodyReader`, `guessAWSRegion`, the body of `main`),
* the AWS SDK `SignHTTP` signer, which is an external dependency that is
  not part of the repository's sources and is therefore modelled from the
  spec (sections 4.4-4.7: canonical request, signing-key derivation,
  signature and Authorization composition).

Machine integers are `Nat` with explicit reduction `% 2^32`; bytes are
`Nat` below 256; all strings handled by the program in the verified claims
are ASCII, so a character's code point is its UTF-8 byte.
-/

/-! ### 32-bit words as `Nat` -/

/-- The modulus `2^32` of the 32-bit words used by SHA-256. -/
def M32 : Nat := 4294967296

/-- 32-bit addition: `Nat` addition reduced `% 2^32`. -/
def add32 (a b : Nat) : Nat := (a + b) % M32

/-- Bitwise complement of a 32-bit word. -/
def not32 (a : Nat) : Nat := Nat.xor a 4294967295

/-- Right rotation of a 32-bit word by `n` places (`0 < n < 32`). -/
def rotr32 (n a : Nat) : Nat :=
  Nat.lor (a >>> n) ((a <<< (32 - n)) % M32)

/-! ### SHA-256 (FIPS 180-4), on lists of bytes -/

/-- The SHA-256 choice function `Ch(e,f,g)`. -/
def shaCh (e f g : Nat) : Nat :=
  Nat.xor (Nat.land e f) (Nat.land (not32 e) g)

/-- The SHA-256 majority function `Maj(a,b,c)`. -/
def shaMaj (a b c : Nat) : Nat :=
  Nat.xor (Nat.land a b) (Nat.xor (Nat.land a c) (Nat.land b c))

/-- The SHA-256 round function `Σ₀`. -/
def bigSigma0 (a : Nat) : Nat :=
  Nat.xor (rotr32 2 a) (Nat.xor (rotr32 13 a) (rotr32 22 a))

/-- The SHA-256 round function `Σ₁`. -/
def bigSigma1 (a : Nat) : Nat :=
  Nat.xor (rotr32 6 a) (Nat.xor (rotr32 11 a) (rotr32 25 a))

/-- The SHA-256 message-schedule function `σ₀`. -/
def smallSigma0 (a : Nat) : Nat :=
  Nat.xor (rotr32 7 a) (Nat.xor (rotr32 18 a) (a >>> 3))

/-- The SHA-256 message-schedule function `σ₁`. -/
def smallSigma1 (a : Nat) : Nat :=
  Nat.xor (rotr32 17 a) (Nat.xor (rotr32 19 a) (a >>> 10))

/-- The 64 SHA-256 round constants `K`. -/
def K256 : List Nat :=
  [1116352408, 1899447441, 3049323471, 3921009573,
   961987163, 1508970993, 2453635748, 2870763221,
   3624381080, 310598401, 607225278, 1426881987,
   1925078388, 2162078206, 2614888103, 3248222580,
   3835390401, 4022224774, 264347078, 604807628,
   770255983, 1249150122, 1555081692, 1996064986,
   2554220882, 2821834349, 2952996808, 3210313671,
   3336571891, 3584528711, 113926993, 338241895,
   666307205, 773529912, 1294757372, 1396182291,
   1695183700, 1986661051, 2177026350, 2456956037,
   2730485921, 2820302411, 3259730800, 3345764771,
   3516065817, 3600352804, 4094571909, 275423344,
   430227734, 506948616, 659060556, 883997877,
   958139571, 1322822218, 1537002063, 1747873779,
   1955562222, 2024104815, 2227730452, 2361852424,
   2428436474, 2756734187, 3204031479, 3329325298]

/-- The SHA-256 initial hash value `H⁽⁰⁾`, eight 32-bit words. -/
def H0256 : List Nat :=
  [1779033703, 3144134277, 1013904242, 2773480762,
   1359893119, 2600822924, 528734635, 1541459225]

/-- A sliding window of the 16 most recent message-schedule words. -/
structure W16 where
  w0 : Nat
  w1 : Nat
  w2 : Nat
  w3 : Nat
  w4 : Nat
  w5 : Nat
  w6 : Nat
  w7 : Nat
  w8 : Nat
  w9 : Nat
  w10 : Nat
  w11 : Nat
  w12 : Nat
  w13 : Nat
  w14 : Nat
  w15 : Nat

/-- Generate `n` further message-schedule words from a 16-word window,
using `W(t) = σ₁(W(t-2)) + W(t-7) + σ₀(W(t-15)) + W(t-16)` (mod 2^32),
emitting them in order. -/
def scheduleRest : Nat → W16 → List Nat
  | 0, _ => []
  | n + 1, ⟨w0, w1, w2, w3, w4, w5, w6, w7, w8, w9, w10, w11, w12, w13, w14, w15⟩ =>
    let w := add32 (smallSigma1 w14) (add32 w9 (add32 (smallSigma0 w1) w0))
    w :: scheduleRest n ⟨w1, w2, w3, w4, w5, w6, w7, w8, w9, w10, w11, w12, w13, w14, w15, w⟩

/-- The full 64-word message schedule of one 16-word block. -/
def schedule64 (ws : List Nat) : List Nat :=
  match ws with
  | [w0, w1, w2, w3, w4, w5, w6, w7, w8, w9, w10, w11, w12, w13, w14, w15] =>
    ws ++ scheduleRest 48 ⟨w0, w1, w2, w3, w4, w5, w6, w7, w8, w9, w10, w11, w12, w13, w14, w15⟩
  | _ => []

/-- The eight-word SHA-256 working state. -/
structure Hash8 where
  a : Nat
  b : Nat
  c : Nat
  d : Nat
  e : Nat
  f : Nat
  g : Nat
  hh : Nat

/-- Run the SHA-256 round function over a list of precomputed values
`K(t) + W(t)` (mod 2^32). -/
def shaRounds : List Nat → Hash8 → Hash8
  | [], st => st
  | kw :: rest, ⟨a, b, c, d, e, f, g, hh⟩ =>
    let t1 := add32 hh (add32 (bigSigma1 e) (add32 (shaCh e f g) kw))
    let t2 := add32 (bigSigma0 a) (shaMaj a b c)
    shaRounds rest ⟨add32 t1 t2, a, b, c, add32 d t1, e, f, g⟩

/-- One SHA-256 compression: absorb a 16-word block into the hash value. -/
def compressBlock (hv : List Nat) (blockWords : List Nat) : List Nat :=
  let kw := List.zipWith add32 K256 (schedule64 blockWords)
  match hv with
  | [a, b, c, d, e, f, g, hh] =>
    match shaRounds kw ⟨a, b, c, d, e, f, g, hh⟩ with
    | ⟨a2, b2, c2, d2, e2, f2, g2, h2⟩ =>
      [add32 a a2, add32 b b2, add32 c c2, add32 d d2,
       add32 e e2, add32 f f2, add32 g g2, add32 hh h2]
  | _ => hv

/-- Big-endian decomposition of a `Nat` into `n` bytes. -/
def beBytes : Nat → Nat → List Nat
  | 0, _ => []
  | k + 1, v => beBytes k (v / 256) ++ [v % 256]

/-- Group a list of bytes into big-endian 32-bit words, four bytes each. -/
def bytesToWords : List Nat → List Nat
  | a :: b :: c :: d :: rest => (((a * 256 + b) * 256 + c) * 256 + d) :: bytesToWords rest
  | _ => []

/-- SHA-256 padding: append `0x80`, zeros, and the 64-bit big-endian bit
length, reaching a multiple of 64 bytes. -/
def shaPad (msg : List Nat) : List Nat :=
  let L := msg.length
  let zeros := (64 - (L + 9) % 64) % 64
  msg ++ [0x80] ++ List.replicate zeros 0 ++ beBytes 8 (8 * L)

/-- Split a padded message into `n` blocks of 16 words each and absorb
them in order. -/
def absorbBlocks : Nat → List Nat → List Nat → List Nat
  | 0, hv, _ => hv
  | n + 1, hv, bytes =>
    absorbBlocks n (compressBlock hv (bytesToWords (bytes.take 64))) (bytes.drop 64)

/-- SHA-256 of a byte list, as the 32-byte digest. -/
def sha256 (msg : List Nat) : List Nat :=
  let p := shaPad msg
  let hv := absorbBlocks (p.length / 64) H0256 p
  hv.foldr (fun w acc => beBytes 4 w ++ acc) []

/-- One lower-case hexadecimal digit. -/
def hexDigit (n : Nat) : Char :=
  if n < 10 then Char.ofNat (48 + n) else Char.ofNat (87 + n)

/-- Lower-case hexadecimal rendering of a byte list. -/
def bytesToHex (bs : List Nat) : String :=
  ⟨bs.foldr (fun b acc => hexDigit (b / 16) :: hexDigit (b % 16) :: acc) []⟩

/-- The bytes of an ASCII string (code point = UTF-8 byte for all strings
handled in the verified claims). -/
def strBytes (s : String) : List Nat := s.data.map Char.toNat

/-- Hex SHA-256 digest of an ASCII string. -/
def sha256hex (s : String) : String := bytesToHex (sha256 (strBytes s))

/-! ### HMAC-SHA256 (RFC 2104) -/

/-- HMAC-SHA256 over byte lists (block size 64; long keys are first
hashed). -/
def hmacSha256 (key msg : List Nat) : List Nat :=
  let k0 := if 64 < key.length then sha256 key else key
  let kp := k0 ++ List.replicate (64 - k0.length) 0
  let ipad := kp.map (fun b => Nat.xor b 0x36)
  let opad := kp.map (fun b => Nat.xor b 0x5c)
  sha256 (opad ++ sha256 (ipad ++ msg))


/-! ### Go standard-library fragments used by `action.go` -/

/-- Panics and aborts observable in the Go program: an
index-out-of-range panic, a nil-pointer dereference, and the program's
own `os.Exit(1)` path. -/
inductive GoAbort where
  | indexOutOfRange
  | nilPointerDereference
  | exitOne
deriving DecidableEq, Repr

/-- Go `strings.Split(s, sep)` for a one-character separator, on the
character list of `s`: all substrings between occurrences of `sep`.
`Split("", sep)` is `[""]` (a single empty field), as in Go. -/
def splitOnChar (sep : Char) : List Char → List (List Char)
  | [] => [[]]
  | c :: rest =>
    match splitOnChar sep rest with
    | hd :: tl => if c = sep then [] :: hd :: tl else (c :: hd) :: tl
    | [] => [[]]

/-- Drop leading space characters (U+0020 only). -/
def dropSpaces : List Char → List Char
  | [] => []
  | c :: rest => if c = ' ' then dropSpaces rest else c :: rest

/-- Go `strings.Trim(s, " ")`: remove leading and trailing space
characters (U+0020 only; tabs and other whitespace are kept). -/
def goTrimSpaces (l : List Char) : List Char :=
  (dropSpaces (dropSpaces l).reverse).reverse

/-- A parsed URL, as far as the program consumes it: scheme, hostname
(port stripped), path and raw query. -/
structure GoURL where
  scheme : String
  host : String
  path : String
  query : String
deriving DecidableEq, Repr

/-- Whether the string contains an ASCII control character, the
condition under which Go's `net/url.Parse` rejects the URLs relevant
here. -/
def containsCtl (s : String) : Bool :=
  s.data.any (fun c => c.toNat < 32 || c.toNat == 127)

/-- Split a character list at the first occurrence of a separator
satisfying `p`, keeping the separator out of both halves; the second
component is `none` when no separator occurs. -/
def splitFirst (p : Char → Bool) : List Char → List Char × Option (List Char)
  | [] => ([], none)
  | c :: rest =>
    if p c then ([], some rest)
    else
      match splitFirst p rest with
      | (l, r) => (c :: l, r)

/-- Split the part after the authority into path and raw query at the
first `?`. -/
def splitPathQuery (pathq : List Char) : List Char × List Char :=
  match splitFirst (fun c => c == '?') pathq with
  | (p, some q) => (p, q)
  | (p, none) => (p, [])

/-- Go `net/url.Parse` followed by `URL.Hostname()`, modelled for the
URL shapes this program receives: `none` when the string contains an
ASCII control character (Go's parse error, after which the program's
discarded-error path dereferences a nil pointer). Otherwise, with a
`scheme://` present the authority runs to the first `/`, `?` or `#`,
the hostname is the authority up to a `:` port separator, and the rest
splits into path and query at the first `?`; without `://` there is no
authority and the hostname is empty, as for Go's scheme-less parses. -/
def urlParse (s : String) : Option GoURL :=
  if containsCtl s then none
  else
    let cs := s.data
    match splitFirst (fun c => c == ':') cs with
    | (before, some after) =>
      if after.take 2 = ['/', '/'] then
        let rest := after.drop 2
        let authority := (splitFirst (fun c => c == '/' || c == '?' || c == '#') rest).1
        let pathq := rest.drop authority.length
        let host := (splitFirst (fun c => c == ':') authority).1
        let (path, query) := splitPathQuery pathq
        some { scheme := ⟨before⟩, host := ⟨host⟩, path := ⟨path⟩, query := ⟨query⟩ }
      else
        let (path, query) := splitPathQuery cs
        some { scheme := "", host := "", path := ⟨path⟩, query := ⟨query⟩ }
    | (_, none) =>
      let (path, query) := splitPathQuery cs
      some { scheme := "", host := "", path := ⟨path⟩, query := ⟨query⟩ }

/-! ### The region regular expression of `action.go`

`const awsRegionRegExp = (us(-gov)?|ap|ca|cn|eu|sa)-(central|(north|south)?(east|west)?)-\d`

Go's `regexp` package uses leftmost-first (Perl-preference) matching, so
the match of this finite pattern at a fixed position is the first
candidate, in alternation/greediness preference order, whose literal
text extends there followed by `-` and a digit. -/

/-- The partition alternatives of the region pattern in preference
order: greedy `us(-gov)?` tries `us-gov` before `us`. -/
def regionPartitions : List String :=
  ["us-gov", "us", "ap", "ca", "cn", "eu", "sa"]

/-- The direction alternatives `central|(north|south)?(east|west)?` in
backtracking preference order, including the empty direction (both
groups optional). -/
def regionDirections : List String :=
  ["central", "northeast", "northwest", "north",
   "southeast", "southwest", "south", "east", "west", ""]

/-- ASCII decimal digit test (`\d`). -/
def isAsciiDigit (c : Char) : Bool := '0' ≤ c && c ≤ '9'

/-- Try one `(partition, direction)` candidate at the head of `s`:
succeeds with the matched substring when `p ++ "-" ++ d ++ "-"` is a
literal prefix of `s` followed by a digit. -/
def matchCandidate (s : List Char) (pd : String × String) : Option String :=
  let pre := (pd.1 ++ "-" ++ pd.2 ++ "-").data
  if pre.isPrefixOf s then
    match s.drop pre.length with
    | c :: _ => if isAsciiDigit c then some ⟨pre ++ [c]⟩ else none
    | [] => none
  else none

/-- All candidates in regex preference order (partition alternation
outer, direction alternation inner). -/
def regionCandidates : List (String × String) :=
  regionPartitions.flatMap (fun p => regionDirections.map (fun d => (p, d)))

/-- The region pattern's match starting exactly at the head of `s`, in
preference order. -/
def matchRegionAt (s : List Char) : Option String :=
  regionCandidates.findSome? (matchCandidate s)

/-- Leftmost match of the region pattern in `s`
(`regexp.FindStringSubmatch`'s full match `result[0]`): scan positions
left to right, returning the first position's match. -/
def findRegion : List Char → Option String
  | [] => none
  | c :: rest =>
    match matchRegionAt (c :: rest) with
    | some r => some r
    | none => findRegion rest

/-! ### The program's functions (`action.go`) -/

/-- The function `guessAWSRegion` from `action.go`: parses the URL (discarding the
error), takes the hostname and searches it for the region pattern. The
result mirrors Go's `(string, error)` pair: on a match, the match and no
error; otherwise the empty string and the error message. When
`url.Parse` fails, the discarded error leaves a nil `*url.URL` and
`u.Hostname()` dereferences it, which we model as
`GoAbort.nilPointerDereference`. -/
def guessAWSRegion (lambdaURL : String) : Except GoAbort (String × Option String) :=
  match urlParse lambdaURL with
  | none => .error .nilPointerDereference
  | some u =>
    match findRegion u.host.data with
    | some r => .ok (r, none)
    | none => .ok ("", some "lambda function URL is malformed, impossible to guess AWS region")

/-- A body reader (`strings.Reader` / `req.Body`): the underlying bytes
and the current read position. -/
structure Reader where
  data : List Nat
  pos : Nat
deriving DecidableEq, Repr

/-- Drain a reader (`io.Copy` / sending the body): the bytes from the
current position to the end, and the exhausted reader. -/
def readAll (r : Reader) : List Nat × Reader :=
  (r.data.drop r.pos, { r with pos := r.data.length })

/-- The HTTP request state the program builds: method, URL components,
the header pairs added by `req.Header.Add` in order, the
`ContentLength` recorded by `http.NewRequest`, and the body reader. -/
structure GoRequest where
  method : String
  host : String
  path : String
  query : String
  headers : List (String × String)
  contentLength : Nat
  bodyReader : Reader
deriving DecidableEq, Repr

/-- One iteration of the header loop in `buildRequestWithBodyReader`:
`strings.Split(header, ":")` then indexing `[0]` and `[1]` with
`strings.Trim(_, " ")`. A line without a colon yields a one-element
slice, so the `[1]` access panics (index out of range). -/
def parseHeaderLine (line : String) : Except GoAbort (String × String) :=
  match splitOnChar ':' line.data with
  | k :: v :: _ => .ok (⟨goTrimSpaces k⟩, ⟨goTrimSpaces v⟩)
  | _ => .error .indexOutOfRange

/-- The header loop over all lines of the `-headers` flag text. -/
def parseHeaderLines : List (List Char) → Except GoAbort (List (String × String))
  | [] => .ok []
  | l :: ls =>
    match parseHeaderLine ⟨l⟩ with
    | .error e => .error e
    | .ok kv =>
      match parseHeaderLines ls with
      | .error e => .error e
      | .ok rest => .ok (kv :: rest)

/-- The function `buildRequestWithBodyReader` from `action.go`: `http.NewRequest`
(recording the URL parts and the reader's remaining length as
`ContentLength`), the header loop over `strings.Split(*headerList, "\n")`,
then `io.Copy` drains the body reader into SHA-256 and the hex digest is
returned with the request. `headerList` is the program's global
`-headers` flag value, made explicit here. -/
def buildRequestWithBodyReader (headerList lambdaURL requestMethod _region : String)
    (requestBody : Reader) : Except GoAbort (GoRequest × String) :=
  match urlParse lambdaURL with
  | none => .error .exitOne
  | some u =>
    match parseHeaderLines (splitOnChar '\n' headerList.data) with
    | .error e => .error e
    | .ok hdrs =>
      let (bodyBytes, drained) := readAll requestBody
      let payloadHash := bytesToHex (sha256 bodyBytes)
      .ok ({ method := requestMethod, host := u.host, path := u.path, query := u.query,
             headers := hdrs,
             contentLength := requestBody.data.length - requestBody.pos,
             bodyReader := drained }, payloadHash)

/-- The function `buildRequest` from `action.go`: wraps the body string in a fresh
`strings.Reader` and delegates. -/
def buildRequest (headerList lambdaURL requestMethod region requestBody : String) :
    Except GoAbort (GoRequest × String) :=
  buildRequestWithBodyReader headerList lambdaURL requestMethod region
    ⟨strBytes requestBody, 0⟩

/-! ### UTC timestamp formatting

`SignHTTP` receives a `time.Time`; the SigV4 date strings are its UTC
calendar rendering. We model an instant as its Unix second count and
compute the Gregorian civil date with the standard days-from-epoch
conversion (valid for all instants at or after the epoch). -/

/-- Civil UTC date `(year, month, day)` of a day count since 1970-01-01. -/
def civilFromDays (z : Nat) : Nat × Nat × Nat :=
  let z := z + 719468
  let era := z / 146097
  let doe := z % 146097
  let yoe := (doe - doe / 1460 + doe / 36524 - doe / 146097) / 365
  let y := yoe + era * 400
  let doy := doe - (365 * yoe + yoe / 4 - yoe / 100)
  let mp := (5 * doy + 2) / 153
  let d := doy - (153 * mp + 2) / 5 + 1
  let m := if mp < 10 then mp + 3 else mp - 9
  (if m ≤ 2 then y + 1 else y, m, d)

/-- Zero-padded decimal rendering with at least two digits. -/
def pad2 (n : Nat) : String :=
  if n < 10 then "0" ++ toString n else toString n

/-- Zero-padded decimal rendering with at least four digits. -/
def pad4 (n : Nat) : String :=
  if n < 10 then "000" ++ toString n
  else if n < 100 then "00" ++ toString n
  else if n < 1000 then "0" ++ toString n
  else toString n

/-- The SigV4 short date `YYYYMMDD` of a Unix timestamp (UTC). -/
def amzShortDate (unixSeconds : Nat) : String :=
  match civilFromDays (unixSeconds / 86400) with
  | (y, m, d) => pad4 y ++ pad2 m ++ pad2 d

/-- The SigV4 timestamp `YYYYMMDDTHHMMSSZ` of a Unix timestamp (UTC). -/
def amzDateTime (unixSeconds : Nat) : String :=
  let secs := unixSeconds % 86400
  amzShortDate unixSeconds ++ "T" ++ pad2 (secs / 3600) ++ pad2 (secs % 3600 / 60)
    ++ pad2 (secs % 60) ++ "Z"

/-! ### The AWS SDK SigV4 signer

Modelled from the spec: the signer `v4.NewSigner().SignHTTP` comes from
`github.com/aws/aws-sdk-go-v2/aws/signer/v4` and is not part of this
repository's sources, so its behaviour (canonical request, signed-header
selection, signing-key derivation, signature and Authorization
composition) is taken from spec sections 4.4-4.7. -/

/-- AWS credentials as the program supplies them: access key id, secret
key, session token (empty when absent). -/
structure Credentials where
  accessKeyID : String
  secretAccessKey : String
  sessionToken : String
deriving DecidableEq, Repr

/-- Lower-case an ASCII string. -/
def lowerStr (s : String) : String := ⟨s.data.map Char.toLower⟩

/-- First value of a header under case-insensitive name lookup, empty
when absent (Go `http.Header.Get`). -/
def headerGet (hdrs : List (String × String)) (name : String) : String :=
  match hdrs.find? (fun kv => lowerStr kv.1 == lowerStr name) with
  | some kv => kv.2
  | none => ""

/-- Whether a header with the given (case-insensitive) name is present. -/
def hasHeader (hdrs : List (String × String)) (name : String) : Bool :=
  hdrs.any (fun kv => lowerStr kv.1 == lowerStr name)

/-- Modelled from the spec (4.4): the deterministic signed-header
selection, emitted directly in lexicographic order: always `host` and
`x-amz-date`; `content-length` and `content-type` when present on the
request; `x-amz-security-token` when a session token is supplied. -/
def signedHeaderNames (req : GoRequest) (creds : Credentials) : List String :=
  (if 0 < req.contentLength then ["content-length"] else [])
    ++ (if hasHeader req.headers "content-type" then ["content-type"] else [])
    ++ ["host", "x-amz-date"]
    ++ (if creds.sessionToken ≠ "" then ["x-amz-security-token"] else [])

/-- The value a signed header contributes to the canonical request. -/
def signedHeaderValue (req : GoRequest) (creds : Credentials) (ts : String)
    (name : String) : String :=
  if name = "content-length" then toString req.contentLength
  else if name = "host" then req.host
  else if name = "x-amz-date" then ts
  else if name = "x-amz-security-token" then creds.sessionToken
  else headerGet req.headers name

/-- Modelled from the spec (4.4): the canonical URI is the path,
`/` when empty (the paths this program signs consist of unreserved
characters and `/`, on which percent-encoding is the identity). -/
def canonicalURI (path : String) : String :=
  if path = "" then "/" else path

/-- Modelled from the spec (4.4): the newline-joined canonical request.
The query strings this program signs are empty, on which the spec's
sort-and-encode step is the identity. -/
def canonicalRequest (req : GoRequest) (creds : Credentials) (ts payloadHash : String) :
    String :=
  let names := signedHeaderNames req creds
  req.method ++ "\n"
    ++ canonicalURI req.path ++ "\n"
    ++ req.query ++ "\n"
    ++ names.foldr
        (fun n acc => n ++ ":" ++ ⟨goTrimSpaces (signedHeaderValue req creds ts n).data⟩
          ++ "\n" ++ acc) ""
    ++ "\n"
    ++ String.intercalate ";" names ++ "\n"
    ++ payloadHash

/-- Modelled from the spec (4.5): the HMAC-SHA256 signing-key chain
`kSigning` from the secret key, short date, region and service. -/
def signingKey (secret date region service : String) : List Nat :=
  hmacSha256
    (hmacSha256
      (hmacSha256
        (hmacSha256 (strBytes ("AWS4" ++ secret)) (strBytes date))
        (strBytes region))
      (strBytes service))
    (strBytes "aws4_request")

/-- Modelled from the spec (4.2/3.): the credential scope
`YYYYMMDD/region/service/aws4_request`. -/
def credentialScope (date region service : String) : String :=
  date ++ "/" ++ region ++ "/" ++ service ++ "/aws4_request"

/-- Modelled from the spec (4.6): the string to sign. -/
def stringToSign (ts scope cr : String) : String :=
  "AWS4-HMAC-SHA256\n" ++ ts ++ "\n" ++ scope ++ "\n" ++ sha256hex cr

/-- Modelled from the spec (4.6): the hex signature over the canonical
request. -/
def computeSignature (creds : Credentials) (req : GoRequest)
    (payloadHash service region : String) (t : Nat) : String :=
  let ts := amzDateTime t
  let date := amzShortDate t
  let cr := canonicalRequest req creds ts payloadHash
  let sts := stringToSign ts (credentialScope date region service) cr
  bytesToHex (hmacSha256 (signingKey creds.secretAccessKey date region service)
    (strBytes sts))

/-- Modelled from the spec (4.7): the Authorization header value. -/
def authorizationValue (creds : Credentials) (req : GoRequest)
    (payloadHash service region : String) (t : Nat) : String :=
  "AWS4-HMAC-SHA256 Credential=" ++ creds.accessKeyID ++ "/"
    ++ credentialScope (amzShortDate t) region service
    ++ ", SignedHeaders=" ++ String.intercalate ";" (signedHeaderNames req creds)
    ++ ", Signature=" ++ computeSignature creds req payloadHash service region t

/-- Modelled from the spec (4.7): `SignHTTP` returns the request with
`X-Amz-Date`, the session token header when present, and `Authorization`
added; everything else is untouched. -/
def signHTTP (creds : Credentials) (req : GoRequest)
    (payloadHash service region : String) (t : Nat) : GoRequest :=
  { req with headers := req.headers
      ++ [("X-Amz-Date", amzDateTime t)]
      ++ (if creds.sessionToken ≠ "" then [("X-Amz-Security-Token", creds.sessionToken)] else [])
      ++ [("Authorization", authorizationValue creds req payloadHash service region t)] }

/-! ### The body of `main` (lines 80-92 of `action.go`) -/

/-- The observable outcome of one signed dispatch: the signed request,
the payload hash that was passed to `SignHTTP`, and the body bytes the
dispatcher transmits (read from the request's body reader). -/
structure SentRequest where
  request : GoRequest
  payloadHash : String
  transmitted : List Nat
deriving Repr

/-- The signing pipeline of `main`: `buildRequest`, then the body reader is
replaced by a fresh reader over the same body string
(`req.Body = ioutil.NopCloser(strings.NewReader(*requestBody))`), then
`SignHTTP`, then the dispatch drains the body reader. -/
def mainSignAndSend (headerList lambdaURL requestMethod requestBody : String)
    (creds : Credentials) (region : String) (t : Nat) : Except GoAbort SentRequest :=
  match buildRequest headerList lambdaURL requestMethod region requestBody with
  | .error e => .error e
  | .ok (req, bodyHash) =>
    let req2 := { req with bodyReader := ⟨strBytes requestBody, 0⟩ }
    let signed := signHTTP creds req2 bodyHash "lambda" region t
    .ok { request := signed, payloadHash := bodyHash,
          transmitted := (readAll signed.bodyReader).1 }

/-! ### Spec-side definitions used to compare against the code -/

/-- Modelled from the spec: the request build as specified (sections
4.2-4.3) with no extra header text — `http.NewRequest` data plus the
payload hash of the body, with the body kept re-readable (buffered) for
transmission. Used to check the end-to-end test vector, which the
program's own `buildRequest` cannot reach (its header loop panics on
the empty default header text). -/
def buildRequestSpec (lambdaURL requestMethod requestBody : String) :
    Option (GoRequest × String) :=
  match urlParse lambdaURL with
  | none => none
  | some u =>
    some ({ method := requestMethod, host := u.host, path := u.path, query := u.query,
            headers := [],
            contentLength := (strBytes requestBody).length,
            bodyReader := ⟨strBytes requestBody, 0⟩ }, sha256hex requestBody)

/-- Strict lexicographic order on character lists, by code point. -/
def lexLtChars : List Char → List Char → Bool
  | [], [] => false
  | [], _ :: _ => true
  | _ :: _, [] => false
  | a :: as, b :: bs =>
    if a.toNat < b.toNat then true
    else if b.toNat < a.toNat then false
    else lexLtChars as bs

/-- Strict lexicographic order on ASCII strings. -/
def strLexLt (a b : String) : Bool := lexLtChars a.data b.data

/-- The invariant claimed of the pipeline outcome: the payload hash that
was passed to the signer is the hex SHA-256 digest of exactly the bytes
the dispatcher transmits (vacuous when the pipeline aborts and nothing
is transmitted). -/
def hashMatchesTransmitted : Except GoAbort SentRequest → Prop
  | .ok out => out.payloadHash = bytesToHex (sha256 out.transmitted)
  | .error _ => True

/-- The Authorization header value a pipeline run produces (`none` when
the run aborts). -/
def pipelineAuthorization : Except GoAbort SentRequest → Option String
  | .ok out => some (headerGet out.request.headers "authorization")
  | .error _ => none

set_option maxRecDepth 100000

/-- The fixed end-to-end vector's URL. -/
def vectorURL : String := "https://some-id.lambda-url.eu-west-1.on.aws/"

/-- The fixed end-to-end vector's credentials. -/
def vectorCredentials : Credentials := ⟨"AKID", "SECRET", "SESSION"⟩

/-- The request the spec's build produces for the vector inputs
(method POST, body `"{}"`, no extra headers). -/
def vectorRequest : GoRequest :=
  { method := "POST", host := "some-id.lambda-url.eu-west-1.on.aws", path := "/", query := "",
    headers := [], contentLength := 2, bodyReader := ⟨strBytes "\x7b\x7d", 0⟩ }


/-! ### Helper lemmas -/

theorem matchRegionAt_nil : matchRegionAt [] = none := by decide

theorem matchRegionAt_drop_ge (s : List Char) (j : Nat) (hj : s.length ≤ j) :
    matchRegionAt (s.drop j) = none := by
  rw [List.drop_eq_nil_of_le hj]
  exact matchRegionAt_nil

theorem findRegion_leftmost (s : List Char) (i : Nat) (r : String)
    (hnone : ∀ j, j < i → matchRegionAt (s.drop j) = none)
    (hmatch : matchRegionAt (s.drop i) = some r) :
    findRegion s = some r := by
  induction s generalizing i with
  | nil =>
    rw [List.drop_nil, matchRegionAt_nil] at hmatch
    cases hmatch
  | cons c rest ih =>
    cases i with
    | zero =>
      rw [List.drop_zero] at hmatch
      unfold findRegion
      rw [hmatch]
    | succ k =>
      have h0 : matchRegionAt (c :: rest) = none := by
        simpa using hnone 0 (Nat.succ_pos k)
      unfold findRegion
      rw [h0]
      exact ih k (fun j hj => by simpa using hnone (j + 1) (Nat.succ_lt_succ hj))
        (by simpa using hmatch)

theorem findRegion_none (s : List Char)
    (h : ∀ j, matchRegionAt (s.drop j) = none) : findRegion s = none := by
  induction s with
  | nil => rfl
  | cons c rest ih =>
    unfold findRegion
    have h0 := h 0
    rw [List.drop_zero] at h0
    rw [h0]
    exact ih (fun j => by simpa using h (j + 1))

theorem splitOnChar_ne_nil (sep : Char) (l : List Char) : splitOnChar sep l ≠ [] := by
  cases l with
  | nil => simp [splitOnChar]
  | cons c rest =>
    unfold splitOnChar
    cases h : splitOnChar sep rest with
    | nil => simp
    | cons hd tl => by_cases hc : c = sep <;> simp [hc]

theorem splitOnChar_no_sep (sep : Char) (l : List Char) (h : sep ∉ l) :
    splitOnChar sep l = [l] := by
  induction l with
  | nil => rfl
  | cons c rest ih =>
    have hc : ¬(c = sep) := fun e => h (e ▸ List.mem_cons_self c rest)
    have hr : sep ∉ rest := fun e => h (List.mem_cons_of_mem c e)
    unfold splitOnChar
    rw [ih hr]
    simp [hc]

theorem splitOnChar_append (sep : Char) (k v : List Char) (hk : sep ∉ k) :
    splitOnChar sep (k ++ sep :: v) = k :: splitOnChar sep v := by
  induction k with
  | nil =>
    cases h : splitOnChar sep v with
    | nil => exact absurd h (splitOnChar_ne_nil sep v)
    | cons hd tl =>
      conv_lhs => rw [List.nil_append, splitOnChar, h]
      simp
  | cons c ks ih =>
    have hc : ¬(c = sep) := fun e => hk (e ▸ List.mem_cons_self c ks)
    have hks : sep ∉ ks := fun e => hk (List.mem_cons_of_mem c e)
    conv_lhs => rw [List.cons_append, splitOnChar, ih hks]
    simp [hc]

/-! ### Claim theorems -/

/-- C4: for every URL whose hostname contains a substring matching the
AWS region token grammar, `guessAWSRegion` returns the first (leftmost,
in the pattern's preference order) such matching substring and no
error. -/
theorem guessAWSRegion_returns_first_match (url : String) (u : GoURL) (i : Nat) (r : String)
    (hu : urlParse url = some u)
    (hnone : ∀ j, j < i → matchRegionAt (u.host.data.drop j) = none)
    (hmatch : matchRegionAt (u.host.data.drop i) = some r) :
    guessAWSRegion url = .ok (r, none) := by
  unfold guessAWSRegion
  rw [hu]
  simp only [findRegion_leftmost u.host.data i r hnone hmatch]

/-- Witness for C4: the hostname `some-id.lambda-url.eu-west-1.on.aws`
matches first at position 19 with `eu-west-1`, and `guessAWSRegion`
returns exactly that. -/
theorem guessAWSRegion_returns_first_match_witness :
    urlParse "https://some-id.lambda-url.eu-west-1.on.aws/" =
      some ⟨"https", "some-id.lambda-url.eu-west-1.on.aws", "/", ""⟩
    ∧ guessAWSRegion "https://some-id.lambda-url.eu-west-1.on.aws/" = .ok ("eu-west-1", none) :=
  ⟨rfl,
    guessAWSRegion_returns_first_match "https://some-id.lambda-url.eu-west-1.on.aws/"
      ⟨"https", "some-id.lambda-url.eu-west-1.on.aws", "/", ""⟩ 19 "eu-west-1"
      rfl (by decide) (by decide)⟩

/-- C5: for every URL whose hostname contains no substring matching the
region token grammar, `guessAWSRegion` returns the empty string together
with the region-resolution error; no fallback region is substituted. -/
theorem guessAWSRegion_no_match_errors (url : String) (u : GoURL)
    (hu : urlParse url = some u)
    (hnone : ∀ j, j < u.host.data.length → matchRegionAt (u.host.data.drop j) = none) :
    guessAWSRegion url =
      .ok ("", some "lambda function URL is malformed, impossible to guess AWS region") := by
  have hall : ∀ j, matchRegionAt (u.host.data.drop j) = none := by
    intro j
    rcases Nat.lt_or_ge j u.host.data.length with hj | hj
    · exact hnone j hj
    · exact matchRegionAt_drop_ge _ j hj
  unfold guessAWSRegion
  rw [hu]
  simp only [findRegion_none u.host.data hall]

/-- Witness for C5: the hostname `some-id.lambda-url.eu-us-2.on.aws`
(malformed region token) matches nowhere, and resolution fails with the
error and an empty region. -/
theorem guessAWSRegion_no_match_errors_witness :
    urlParse "https://some-id.lambda-url.eu-us-2.on.aws/" =
      some ⟨"https", "some-id.lambda-url.eu-us-2.on.aws", "/", ""⟩
    ∧ guessAWSRegion "https://some-id.lambda-url.eu-us-2.on.aws/" =
      .ok ("", some "lambda function URL is malformed, impossible to guess AWS region") :=
  ⟨rfl,
    guessAWSRegion_no_match_errors "https://some-id.lambda-url.eu-us-2.on.aws/"
      ⟨"https", "some-id.lambda-url.eu-us-2.on.aws", "/", ""⟩
      rfl (by decide)⟩

/-- C10: `guessAWSRegion` is not total over arbitrary URL strings: on an
input that `url.Parse` rejects (here one containing the ASCII NUL
control character) the discarded parse error leaves a nil `*url.URL`
and `u.Hostname()` dereferences it — the step faults instead of
returning the region-resolution error. -/
theorem guessAWSRegion_ctl_char_faults :
    guessAWSRegion "https://some\x00id.lambda-url.eu-west-1.on.aws/" =
      .error .nilPointerDereference := rfl

/-- C2 (refuting): a header line with a colon but no value does yield
the trimmed key with an empty value, but a line with no colon at all
(`"fkeofew??"`, taken from the repository's own header-parsing test
data) makes the `[1]` index of the split panic, aborting the request
build — contrary to the claim that no line can abort it. -/
theorem headerLine_no_colon_panics :
    parseHeaderLine "Key:" = .ok ("Key", "")
    ∧ parseHeaderLine "fkeofew??" = .error .indexOutOfRange
    ∧ buildRequest "fkeofew??" "https://example.com/" "GET" "eu-west-1" "" =
      .error .indexOutOfRange :=
  ⟨rfl, rfl, rfl⟩

/-- C8 (refuting): a `"Key: Value"` line whose value carries a leading
tab keeps the tab — `strings.Trim(_, " ")` removes only spaces, so the
claim that tabs are trimmed as well fails. -/
theorem headerLine_tab_not_trimmed :
    parseHeaderLine "Key:\tValue" = .ok ("Key", "\tValue")
    ∧ ("\tValue" : String) ≠ "Value" :=
  ⟨rfl, by decide⟩

/-- C8 (amended): for every header line `key ++ ":" ++ value` (neither
part containing a further colon), the pair added to the request is the
key and the value each with leading and trailing space characters
(U+0020 only) removed. -/
theorem headerLine_trims_spaces (key value : String)
    (hk : ':' ∉ key.data) (hv : ':' ∉ value.data) :
    parseHeaderLine (key ++ ":" ++ value) =
      .ok (⟨goTrimSpaces key.data⟩, ⟨goTrimSpaces value.data⟩) := by
  unfold parseHeaderLine
  have hdata : (key ++ ":" ++ value).data = key.data ++ ':' :: value.data := by
    simp [String.data_append]
  rw [hdata, splitOnChar_append ':' key.data value.data hk,
    splitOnChar_no_sep ':' value.data hv]

/-- Witness for the amended C8: `" Key : Value "` parses to
`("Key", "Value")` with surrounding spaces stripped from both parts. -/
theorem headerLine_trims_spaces_witness :
    parseHeaderLine (" Key " ++ ":" ++ "  Value ") =
      .ok (⟨goTrimSpaces " Key ".data⟩, ⟨goTrimSpaces "  Value ".data⟩)
    ∧ (⟨goTrimSpaces " Key ".data⟩ : String) = "Key"
    ∧ (⟨goTrimSpaces "  Value ".data⟩ : String) = "Value" :=
  ⟨headerLine_trims_spaces " Key " "  Value " (by decide) (by decide), rfl, rfl⟩

/-- C9 (refuting): with the `-headers` flag at its default empty value —
as in the repository's own tests — `buildRequest` on an empty body never
produces a payload hash: the header loop splits the single empty line on
`":"` and the `[1]` index panics. -/
theorem buildRequest_empty_body_default_headers_panics :
    buildRequest "" "https://some-id.lambda-url.eu-west-1.on.aws/" "POST" "eu-west-1" "" =
      .error .indexOutOfRange := rfl

/-- C9 (amended): whenever the header text parses without a panic (and
the URL parses), `buildRequest` on an empty body string produces the
payload hash `e3b0c442…`, the lower-case hex SHA-256 digest of the
empty byte string. -/
theorem buildRequest_empty_body_hash
    (headerList lambdaURL requestMethod region : String) (req : GoRequest) (hash : String)
    (h : buildRequest headerList lambdaURL requestMethod region "" = .ok (req, hash)) :
    hash = "e3b0c44298fc1c149afbf4c8996fb92427ae41e4649b934ca495991b7852b855" := by
  unfold buildRequest buildRequestWithBodyReader at h
  cases hu : urlParse lambdaURL with
  | none => rw [hu] at h; cases h
  | some u =>
    rw [hu] at h
    cases hh : parseHeaderLines (splitOnChar '\n' headerList.data) with
    | error e => rw [hh] at h; cases h
    | ok hdrs =>
      rw [hh] at h
      simp only [readAll, List.drop_zero, Except.ok.injEq, Prod.mk.injEq] at h
      rw [← h.2]
      rfl

/-- Witness for the amended C9: a parseable one-line header text. -/
theorem buildRequest_empty_body_hash_witness :
    buildRequest "a:b" "https://example.com/" "GET" "eu-west-1" "" =
      .ok (⟨"GET", "example.com", "/", "", [("a", "b")], 0, ⟨[], 0⟩⟩,
        "e3b0c44298fc1c149afbf4c8996fb92427ae41e4649b934ca495991b7852b855")
    ∧ "e3b0c44298fc1c149afbf4c8996fb92427ae41e4649b934ca495991b7852b855" =
      "e3b0c44298fc1c149afbf4c8996fb92427ae41e4649b934ca495991b7852b855" :=
  ⟨rfl,
    buildRequest_empty_body_hash "a:b" "https://example.com/" "GET" "eu-west-1"
      ⟨"GET", "example.com", "/", "", [("a", "b")], 0, ⟨[], 0⟩⟩
      "e3b0c44298fc1c149afbf4c8996fb92427ae41e4649b934ca495991b7852b855" rfl⟩

/-- C3: on every pipeline run that reaches the signer, the payload hash
passed to `SignHTTP` is the hex SHA-256 digest of exactly the bytes the
dispatcher later transmits — `main` replaces the drained body reader
with a fresh reader over the same body string before sending. -/
theorem pipeline_hash_matches_transmitted
    (headerList lambdaURL requestMethod requestBody : String)
    (creds : Credentials) (region : String) (t : Nat) :
    hashMatchesTransmitted
      (mainSignAndSend headerList lambdaURL requestMethod requestBody creds region t) := by
  unfold mainSignAndSend
  cases hb : buildRequest headerList lambdaURL requestMethod region requestBody with
  | error e => exact trivial
  | ok p =>
    obtain ⟨req, bodyHash⟩ := p
    have hhash : bodyHash = bytesToHex (sha256 (strBytes requestBody)) := by
      unfold buildRequest buildRequestWithBodyReader at hb
      cases hu : urlParse lambdaURL with
      | none => rw [hu] at hb; cases hb
      | some u =>
        rw [hu] at hb
        cases hh : parseHeaderLines (splitOnChar '\n' headerList.data) with
        | error e => rw [hh] at hb; cases hb
        | ok hdrs =>
          rw [hh] at hb
          simp only [readAll, List.drop_zero, Except.ok.injEq, Prod.mk.injEq] at hb
          exact hb.2.symm
    show bodyHash = bytesToHex (sha256 (strBytes requestBody))
    exact hhash

/-- C6: the signing pipeline is a pure function of (header text, URL,
method, body, credentials, region, timestamp): two runs with identical
inputs produce identical Authorization header values. -/
theorem pipeline_deterministic
    (hl₁ hl₂ url₁ url₂ m₁ m₂ b₁ b₂ : String) (c₁ c₂ : Credentials)
    (r₁ r₂ : String) (t₁ t₂ : Nat)
    (hhl : hl₁ = hl₂) (hurl : url₁ = url₂) (hm : m₁ = m₂) (hb : b₁ = b₂)
    (hc : c₁ = c₂) (hr : r₁ = r₂) (ht : t₁ = t₂) :
    pipelineAuthorization (mainSignAndSend hl₁ url₁ m₁ b₁ c₁ r₁ t₁) =
    pipelineAuthorization (mainSignAndSend hl₂ url₂ m₂ b₂ c₂ r₂ t₂) := by
  subst hhl hurl hm hb hc hr ht
  rfl

/-- Witness for C6 at a concrete input pair. -/
theorem pipeline_deterministic_witness :
    pipelineAuthorization
      (mainSignAndSend "a:b" "https://example.com/" "GET" "" ⟨"AKID", "SECRET", ""⟩ "eu-west-1" 0) =
    pipelineAuthorization
      (mainSignAndSend "a:b" "https://example.com/" "GET" "" ⟨"AKID", "SECRET", ""⟩ "eu-west-1" 0) :=
  pipeline_deterministic _ _ _ _ _ _ _ _ _ _ _ _ _ _ rfl rfl rfl rfl rfl rfl rfl

/-- C7: the signed-header list is lexicographically sorted, always
contains `host` and `x-amz-date`, contains `content-length` and
`content-type` exactly when present on the request, contains
`x-amz-security-token` exactly when a session token is supplied, and is
the list the produced Authorization header carries in its
`SignedHeaders=` field. -/
theorem signedHeaders_sorted_and_policy (creds : Credentials) (req : GoRequest)
    (payloadHash service region : String) (t : Nat) :
    List.Chain' (fun a b => strLexLt a b = true) (signedHeaderNames req creds)
    ∧ "host" ∈ signedHeaderNames req creds
    ∧ "x-amz-date" ∈ signedHeaderNames req creds
    ∧ ("content-length" ∈ signedHeaderNames req creds ↔ 0 < req.contentLength)
    ∧ ("content-type" ∈ signedHeaderNames req creds ↔ hasHeader req.headers "content-type" = true)
    ∧ ("x-amz-security-token" ∈ signedHeaderNames req creds ↔ creds.sessionToken ≠ "")
    ∧ ("Authorization",
        "AWS4-HMAC-SHA256 Credential=" ++ creds.accessKeyID ++ "/"
          ++ credentialScope (amzShortDate t) region service
          ++ ", SignedHeaders=" ++ String.intercalate ";" (signedHeaderNames req creds)
          ++ ", Signature=" ++ computeSignature creds req payloadHash service region t)
        ∈ (signHTTP creds req payloadHash service region t).headers := by
  refine ⟨?_, ?_, ?_, ?_, ?_, ?_, ?_⟩
  all_goals
    by_cases h1 : 0 < req.contentLength <;>
    by_cases h2 : hasHeader req.headers "content-type" <;>
    by_cases h3 : creds.sessionToken = "" <;>
    simp [signedHeaderNames, signHTTP, authorizationValue, h1, h2, h3] <;>
    decide

/-- C1: on the fixed vector inputs the program's own `buildRequest`
panics in its header loop (the `-headers` flag is at its default empty
value, exactly as in the repository's `TestSignRequest`), so the signing
pipeline as coded never produces the vector. The vector itself is right:
the spec's build yields the `"{}"` payload hash, and the spec-modelled
signer at Unix epoch 0 produces exactly the expected `X-Amz-Date` and
`Authorization` header values, signature included. -/
theorem signing_vector_code_bug :
    buildRequest "" vectorURL "POST" "eu-west-1" "\x7b\x7d" = .error .indexOutOfRange
    ∧ buildRequestSpec vectorURL "POST" "\x7b\x7d" =
        some (vectorRequest, "44136fa355b3678a1146ad16f7e8649e94fb4fc21fe77e8310c060f61caaff8a")
    ∧ headerGet (signHTTP vectorCredentials vectorRequest
        "44136fa355b3678a1146ad16f7e8649e94fb4fc21fe77e8310c060f61caaff8a"
        "lambda" "eu-west-1" 0).headers "x-amz-date" = "19700101T000000Z"
    ∧ headerGet (signHTTP vectorCredentials vectorRequest
        "44136fa355b3678a1146ad16f7e8649e94fb4fc21fe77e8310c060f61caaff8a"
        "lambda" "eu-west-1" 0).headers "authorization" =
      "AWS4-HMAC-SHA256 Credential=AKID/19700101/eu-west-1/lambda/aws4_request, SignedHeaders=content-length;host;x-amz-date;x-amz-security-token, Signature=89d2a4858dac64a1699891c494929097f1c00e65e3bf8dbb99cc625bd7baad12" :=
  ⟨rfl, rfl, rfl, by decide⟩
